import Mathlib

/-!
# Verification of the anvil detection/generation core

A shallow embedding of the anvil project scaffolder: the per-category
detectors (`src/detector/*.ts`) and the generation layer
(`src/generator/*.ts`), together with proofs of the specified properties.

Conventions of the embedding:
* The asynchronous `FileSystem` interface of `src/detector/index.ts`
  becomes a record of pure functions (`exists` is renamed `fexists`
  because `exists` is reserved in Lean).
* `JSON.parse` of the JavaScript runtime is modelled by the executable
  parser `jsonParse` below (strings, numbers kept as lexemes, arrays,
  objects in insertion order, `null`, booleans); a parse failure, which
  the source catches with `try/catch`, is `none`.
* `JSON.stringify(v, null, 2)` is modelled by `jsonStringify`.
* TypeScript string methods map as follows: `includes` ↦ `strContains`,
  `endsWith` ↦ `strEndsWith`, `repeat` ↦ `List.replicate`.
-/

namespace Anvil

/-- A JSON value.  Number literals keep their lexeme: none of the code
under verification ever inspects a numeric value.  Object fields are in
insertion order, exactly as produced by `JSON.parse`. -/
inductive Json where
  | null : Json
  | bool (b : Bool) : Json
  | num (lexeme : String) : Json
  | str (s : String) : Json
  | arr (elems : List Json) : Json
  | obj (fields : List (String × Json)) : Json
deriving Repr

/-- The character `{` (written via its code to keep it out of string
literals). -/
def braceOpen : Char := Char.ofNat 123

/-- The character `}`. -/
def braceClose : Char := Char.ofNat 125

/-- Skip JSON whitespace. -/
def skipWs : List Char → List Char
  | [] => []
  | c :: cs =>
    if c = ' ' ∨ c = '\t' ∨ c = '\n' ∨ c = '\r' then skipWs cs else c :: cs

/-- Hex digit value. -/
def hexVal (c : Char) : Option Nat :=
  if '0' ≤ c ∧ c ≤ '9' then some (c.toNat - '0'.toNat)
  else if 'a' ≤ c ∧ c ≤ 'f' then some (c.toNat - 'a'.toNat + 10)
  else if 'A' ≤ c ∧ c ≤ 'F' then some (c.toNat - 'A'.toNat + 10)
  else none

/-- Parse the body of a JSON string literal (after the opening quote),
returning the decoded characters and the input after the closing quote. -/
def parseStringBody : List Char → Option (List Char × List Char)
  | [] => none
  | '"' :: rest => some ([], rest)
  | '\\' :: esc =>
    match esc with
    | '"' :: rest => (parseStringBody rest).map (fun p => ('"' :: p.1, p.2))
    | '\\' :: rest => (parseStringBody rest).map (fun p => ('\\' :: p.1, p.2))
    | '/' :: rest => (parseStringBody rest).map (fun p => ('/' :: p.1, p.2))
    | 'b' :: rest => (parseStringBody rest).map (fun p => (Char.ofNat 8 :: p.1, p.2))
    | 'f' :: rest => (parseStringBody rest).map (fun p => (Char.ofNat 12 :: p.1, p.2))
    | 'n' :: rest => (parseStringBody rest).map (fun p => ('\n' :: p.1, p.2))
    | 'r' :: rest => (parseStringBody rest).map (fun p => ('\r' :: p.1, p.2))
    | 't' :: rest => (parseStringBody rest).map (fun p => ('\t' :: p.1, p.2))
    | 'u' :: h1 :: h2 :: h3 :: h4 :: rest =>
      match hexVal h1, hexVal h2, hexVal h3, hexVal h4 with
      | some a, some b, some c, some d =>
        (parseStringBody rest).map
          (fun p => (Char.ofNat (((a * 16 + b) * 16 + c) * 16 + d) :: p.1, p.2))
      | _, _, _, _ => none
    | _ => none
  | c :: rest =>
    if c.toNat < 32 then none
    else (parseStringBody rest).map (fun p => (c :: p.1, p.2))

/-- Take a maximal run of decimal digits. -/
def takeDigits : List Char → List Char × List Char
  | [] => ([], [])
  | c :: cs =>
    if c.isDigit then
      let p := takeDigits cs
      (c :: p.1, p.2)
    else ([], c :: cs)

/-- Parse the integer part of a JSON number (no leading zeros). -/
def parseIntPart : List Char → Option (List Char × List Char)
  | [] => none
  | c :: cs =>
    if c = '0' then some (['0'], cs)
    else if c.isDigit then
      let p := takeDigits cs
      some (c :: p.1, p.2)
    else none

/-- Parse the optional fraction part. -/
def parseFracPart : List Char → Option (List Char × List Char)
  | '.' :: cs =>
    let p := takeDigits cs
    if p.1.isEmpty then none else some ('.' :: p.1, p.2)
  | l => some ([], l)

/-- Parse the optional exponent part. -/
def parseExpPart : List Char → Option (List Char × List Char)
  | c :: cs =>
    if c = 'e' ∨ c = 'E' then
      match cs with
      | s :: cs2 =>
        if s = '+' ∨ s = '-' then
          let p := takeDigits cs2
          if p.1.isEmpty then none else some (c :: s :: p.1, p.2)
        else
          let p := takeDigits (s :: cs2)
          if p.1.isEmpty then none else some (c :: p.1, p.2)
      | [] => none
    else some ([], c :: cs)
  | [] => some ([], [])

/-- Parse a JSON number lexeme. -/
def parseNumberLex (l : List Char) : Option (List Char × List Char) :=
  let (sign, l1) :=
    match l with
    | '-' :: rest => (['-'], rest)
    | _ => (([] : List Char), l)
  match parseIntPart l1 with
  | none => none
  | some (ip, l2) =>
    match parseFracPart l2 with
    | none => none
    | some (fp, l3) =>
      match parseExpPart l3 with
      | none => none
      | some (ep, l4) => some (sign ++ ip ++ fp ++ ep, l4)

mutual

/-- Parse one JSON value.  The fuel strictly decreases at every
recursive call; `jsonParse` supplies enough fuel for any input. -/
def parseValue : Nat → List Char → Option (Json × List Char)
  | 0, _ => none
  | fuel + 1, cs =>
    match skipWs cs with
    | [] => none
    | 'n' :: 'u' :: 'l' :: 'l' :: rest => some (.null, rest)
    | 't' :: 'r' :: 'u' :: 'e' :: rest => some (.bool true, rest)
    | 'f' :: 'a' :: 'l' :: 's' :: 'e' :: rest => some (.bool false, rest)
    | '"' :: rest =>
      match parseStringBody rest with
      | some (s, r) => some (.str (String.mk s), r)
      | none => none
    | '[' :: rest =>
      (match skipWs rest with
       | ']' :: r => some (.arr [], r)
       | l => match parseItems fuel l [] with
         | some (vs, r) => some (.arr vs, r)
         | none => none)
    | c :: rest =>
      if c = braceOpen then
        match skipWs rest with
        | c2 :: r2 =>
          if c2 = braceClose then some (.obj [], r2)
          else
            match parsePairs fuel (c2 :: r2) [] with
            | some (fs, r) => some (.obj fs, r)
            | none => none
        | [] => none
      else
        match parseNumberLex (c :: rest) with
        | some (ds, r) => some (.num (String.mk ds), r)
        | none => none

/-- Parse the comma-separated elements of a non-empty JSON array, up to
and including the closing `]`. -/
def parseItems : Nat → List Char → List Json → Option (List Json × List Char)
  | 0, _, _ => none
  | fuel + 1, cs, acc =>
    match parseValue fuel cs with
    | none => none
    | some (v, rest) =>
      match skipWs rest with
      | ',' :: r => parseItems fuel r (acc ++ [v])
      | ']' :: r => some (acc ++ [v], r)
      | _ => none

/-- Parse the comma-separated members of a non-empty JSON object, up to
and including the closing brace. -/
def parsePairs : Nat → List Char → List (String × Json) →
    Option (List (String × Json) × List Char)
  | 0, _, _ => none
  | fuel + 1, cs, acc =>
    match skipWs cs with
    | '"' :: rest =>
      (match parseStringBody rest with
       | some (k, rest2) =>
         (match skipWs rest2 with
          | ':' :: rest3 =>
            (match parseValue fuel rest3 with
             | some (v, rest4) =>
               (match skipWs rest4 with
                | ',' :: r => parsePairs fuel r (acc ++ [(String.mk k, v)])
                | c :: r =>
                  if c = braceClose then some (acc ++ [(String.mk k, v)], r)
                  else none
                | [] => none)
             | none => none)
          | _ => none)
       | none => none)
    | _ => none

end

/-- Model of JavaScript `JSON.parse`: `none` when the parse would throw. -/
def jsonParse (s : String) : Option Json :=
  match parseValue (2 * s.length + 8) s.data with
  | some (v, rest) => if (skipWs rest).isEmpty then some v else none
  | none => none

/-- Escape one character for a JSON string literal. -/
def escChar (c : Char) : String :=
  if c = '"' then "\\\""
  else if c = '\\' then "\\\\"
  else if c = '\n' then "\\n"
  else if c = '\r' then "\\r"
  else if c = '\t' then "\\t"
  else if c = Char.ofNat 8 then "\\b"
  else if c = Char.ofNat 12 then "\\f"
  else if c.toNat < 32 then
    let hx := fun (n : Nat) => String.singleton (Char.ofNat (if n < 10 then 48 + n else 87 + n))
    "\\u00" ++ hx (c.toNat / 16) ++ hx (c.toNat % 16)
  else String.singleton c

/-- A quoted, escaped JSON string literal. -/
def escapeJson (s : String) : String :=
  "\"" ++ String.join (s.data.map escChar) ++ "\""

/-- Indentation of `2 * n` spaces. -/
def indentStr (n : Nat) : String := String.mk (List.replicate (2 * n) ' ')

/-- Pretty-print a JSON value at nesting depth `d`, in the exact format
of JavaScript `JSON.stringify(v, null, 2)`.  The fuel bounds the nesting
depth; `jsonStringify` supplies more than any document here needs. -/
def jsonStringifyAux : Nat → Json → Nat → String
  | 0, _, _ => ""
  | fuel + 1, j, d =>
    match j with
    | .null => "null"
    | .bool true => "true"
    | .bool false => "false"
    | .num lexeme => lexeme
    | .str s => escapeJson s
    | .arr [] => "[]"
    | .arr (x :: xs) =>
      "[\n" ++
        String.intercalate ",\n"
          ((x :: xs).map (fun v => indentStr (d + 1) ++ jsonStringifyAux fuel v (d + 1))) ++
        "\n" ++ indentStr d ++ "]"
    | .obj [] => "\x7b\x7d"
    | .obj (f :: fs) =>
      "\x7b\n" ++
        String.intercalate ",\n"
          ((f :: fs).map (fun kv =>
            indentStr (d + 1) ++ escapeJson kv.1 ++ ": " ++
              jsonStringifyAux fuel kv.2 (d + 1))) ++
        "\n" ++ indentStr d ++ "\x7d"

/-- Model of JavaScript `JSON.stringify(v, null, 2)`. -/
def jsonStringify (j : Json) : String := jsonStringifyAux 128 j 0

/-- JavaScript `typeof x === "object" && x !== null` for a parsed JSON
value (arrays are of type object in JavaScript). -/
def isObjectNonNull : Json → Bool
  | .obj _ => true
  | .arr _ => true
  | _ => false

/-- Property access `x[key]` on a parsed JSON value for a non-numeric
key: the last occurrence wins, as in JavaScript object construction.
Numeric index access on arrays is not modelled; every key the code
accesses is non-numeric. -/
def getProp : Json → String → Option Json
  | .obj fields, k => ((fields.filter (fun kv => kv.1 == k)).map (fun kv => kv.2)).getLast?
  | _, _ => none

/-- JavaScript `key in x` for a parsed JSON value and a non-numeric key. -/
def keyInObjVal : Option Json → String → Bool
  | some (.obj fields), k => fields.any (fun kv => kv.1 == k)
  | _, _ => false

/-- JavaScript `s.includes(pat)`: `pat` occurs in `s` as a substring. -/
def subOccurs (pat : List Char) : List Char → Bool
  | [] => pat.isEmpty
  | c :: tl => pat.isPrefixOf (c :: tl) || subOccurs pat tl

/-- JavaScript `s.includes(pat)`. -/
def strContains (s pat : String) : Bool := subOccurs pat.data s.data

/-- JavaScript `s.endsWith(suffix)`. -/
def strEndsWith (s suffix : String) : Bool := suffix.data.isSuffixOf s.data

/-! ## Data model (`src/detector/types.ts`) -/

/-- Supported primary languages for v1 detection. -/
inductive Language where
  | typescript | javascript | python
deriving DecidableEq, Repr

/-- Package managers we can detect. -/
inductive PackageManager where
  | npm | yarn | pnpm | bun | pip | poetry | uv | pipenv
deriving DecidableEq, Repr

/-- Test frameworks we can detect. -/
inductive TestFramework where
  | vitest | jest | mocha | pytest | unittest
deriving DecidableEq, Repr

/-- Build systems we can detect. -/
inductive BuildSystem where
  | tsc | vite | webpack | esbuild | rollup | setuptools | hatch | maturin
deriving DecidableEq, Repr

/-- CI providers we can detect (the enum value is `"github-actions"`). -/
inductive CIProvider where
  | githubActions
deriving DecidableEq, Repr

/-- Linters and formatters we can detect. -/
inductive Linter where
  | eslint | prettier | biome | ruff | black | flake8 | mypy
deriving DecidableEq, Repr

/-- A detected command extracted from project config. -/
structure DetectedCommand where
  command : String
  source : String
deriving DecidableEq, Repr

/-- A detected test framework and its run command. -/
structure TestFrameworkResult where
  name : TestFramework
  command : DetectedCommand
deriving DecidableEq, Repr

/-- A detected build system and its run command. -/
structure BuildSystemResult where
  name : BuildSystem
  command : DetectedCommand
deriving DecidableEq, Repr

/-- A detected linter and its run command. -/
structure LinterResult where
  name : Linter
  command : DetectedCommand
deriving DecidableEq, Repr

/-- Result of running all detectors.  Nullable fields mean "not
detected". -/
structure DetectionResult where
  languages : List Language
  packageManager : Option PackageManager
  testFramework : Option TestFrameworkResult
  buildSystem : Option BuildSystemResult
  ciProvider : Option CIProvider
  linters : List LinterResult
  isMonorepo : Bool
  installCommand : Option DetectedCommand
  directories : List String
deriving DecidableEq, Repr

/-- An empty detection result as a starting point. -/
def emptyDetectionResult : DetectionResult :=
  { languages := []
    packageManager := none
    testFramework := none
    buildSystem := none
    ciProvider := none
    linters := []
    isMonorepo := false
    installCommand := none
    directories := [] }

/-- Filesystem abstraction of `src/detector/index.ts` (pure model of the
async interface; the source field `exists` is renamed `fexists`, a
reserved word in Lean).  `readFile` returns `none` when the file does
not exist; `readDir` returns `[]` when the directory does not exist. -/
structure FileSystem where
  fexists : String → Bool
  readFile : String → Option String
  readDir : String → List String

/-! ## Language detector (`src/detector/language.ts`) -/

/-- Source function `hasTypescriptDep`: does package.json declare typescript among
`dependencies` or `devDependencies`?  Malformed JSON yields `false`
(the source catches the parse error). -/
def hasTypescriptDep (packageJsonContent : String) : Bool :=
  match jsonParse packageJsonContent with
  | none => false
  | some parsed =>
    if !isObjectNonNull parsed then false
    else
      let deps := getProp parsed "dependencies"
      let devDeps := getProp parsed "devDependencies"
      if keyInObjVal deps "typescript" then true
      else if keyInObjVal devDeps "typescript" then true
      else false

/-- Python-ecosystem marker files checked by the language detector. -/
def pythonSignals : List String :=
  ["pyproject.toml", "setup.py", "setup.cfg", "requirements.txt"]

/-- The Node.js / JavaScript / TypeScript group of `detectLanguage`. -/
def jsLangPart (projectPath : String) (fsys : FileSystem) : List Language :=
  if fsys.fexists (projectPath ++ "/package.json") then
    if fsys.fexists (projectPath ++ "/tsconfig.json") then [.typescript]
    else
      match fsys.readFile (projectPath ++ "/package.json") with
      | some packageJson =>
        if hasTypescriptDep packageJson then [.typescript] else [.javascript]
      | none => [.javascript]
  else []

/-- The Python group of `detectLanguage` (first marker wins, loop with
`break`). -/
def pyLangPart (projectPath : String) (fsys : FileSystem) : List Language :=
  if pythonSignals.any (fun signal => fsys.fexists (projectPath ++ "/" ++ signal)) then
    [.python]
  else []

/-- Source function `detectLanguage`: languages are appended in group order, the JS/TS
group first, then the Python group. -/
def detectLanguage (projectPath : String) (fsys : FileSystem) : List Language :=
  jsLangPart projectPath fsys ++ pyLangPart projectPath fsys

/-! ## Script mining shared by test-framework and build-system detectors -/

/-- Extract `scripts.<field>` from a package.json text, mirroring the
guard sequence of `detectFromBuildScript` / `detectFromPackageJsonScripts`:
parse; require an object; read `scripts`; require an object; read the
field; require a string.  Any failure yields `none`. -/
def scriptFieldOf (packageJsonContent : String) (field : String) : Option String :=
  match jsonParse packageJsonContent with
  | none => none
  | some parsed =>
    if !isObjectNonNull parsed then none
    else
      match getProp parsed "scripts" with
      | some scripts =>
        if !isObjectNonNull scripts then none
        else
          match getProp scripts field with
          | some (.str s) => some s
          | _ => none
      | none => none

/-! ## Test framework detector (`src/detector/test-framework.ts`) -/

/-- Helper: does the config file exist under the project root? -/
def cfgExists (projectPath : String) (fsys : FileSystem) (config : String) : Bool :=
  fsys.fexists (projectPath ++ "/" ++ config)

/-- Vitest config filenames, in checked order. -/
def vitestConfigs : List String :=
  ["vitest.config.ts", "vitest.config.js", "vitest.config.mts", "vitest.config.mjs"]

/-- Jest config filenames, in checked order. -/
def jestConfigs : List String := ["jest.config.ts", "jest.config.js", "jest.config.mjs"]

/-- Mocha config filenames, in checked order. -/
def mochaConfigs : List String :=
  [".mocharc.yml", ".mocharc.yaml", ".mocharc.json", ".mocharc.js"]

/-- Source function `detectFromPackageJsonScripts`: mine the `test` script for known
framework substrings, first match in fixed order wins. -/
def detectFromPackageJsonScripts (packageJsonContent : String) :
    Option TestFrameworkResult :=
  match scriptFieldOf packageJsonContent "test" with
  | none => none
  | some testScript =>
    if strContains testScript "vitest" then
      some ⟨.vitest, ⟨"npm test", "package.json scripts.test"⟩⟩
    else if strContains testScript "jest" then
      some ⟨.jest, ⟨"npm test", "package.json scripts.test"⟩⟩
    else if strContains testScript "mocha" then
      some ⟨.mocha, ⟨"npm test", "package.json scripts.test"⟩⟩
    else none

/-- Source function `detectNodeTestFramework`: config files first, then script mining. -/
def detectNodeTestFramework (projectPath : String) (fsys : FileSystem) :
    Option TestFrameworkResult :=
  match vitestConfigs.find? (cfgExists projectPath fsys) with
  | some config => some ⟨.vitest, ⟨"npx vitest run", config⟩⟩
  | none =>
    match jestConfigs.find? (cfgExists projectPath fsys) with
    | some config => some ⟨.jest, ⟨"npx jest", config⟩⟩
    | none =>
      match mochaConfigs.find? (cfgExists projectPath fsys) with
      | some config => some ⟨.mocha, ⟨"npx mocha", config⟩⟩
      | none =>
        match fsys.readFile (projectPath ++ "/package.json") with
        | some packageJson => detectFromPackageJsonScripts packageJson
        | none => none

/-- Source function `detectPythonTestFramework`. -/
def detectPythonTestFramework (projectPath : String) (fsys : FileSystem) :
    Option TestFrameworkResult :=
  if fsys.fexists (projectPath ++ "/pytest.ini") then
    some ⟨.pytest, ⟨"pytest", "pytest.ini"⟩⟩
  else if fsys.fexists (projectPath ++ "/conftest.py") then
    some ⟨.pytest, ⟨"pytest", "conftest.py"⟩⟩
  else
    match fsys.readFile (projectPath ++ "/pyproject.toml") with
    | some pyprojectContent =>
      if strContains pyprojectContent "[tool.pytest" then
        some ⟨.pytest, ⟨"pytest", "pyproject.toml [tool.pytest]"⟩⟩
      else
        match fsys.readFile (projectPath ++ "/setup.cfg") with
        | some setupCfg =>
          if strContains setupCfg "[tool:pytest]" then
            some ⟨.pytest, ⟨"pytest", "setup.cfg [tool:pytest]"⟩⟩
          else none
        | none => none
    | none =>
      match fsys.readFile (projectPath ++ "/setup.cfg") with
      | some setupCfg =>
        if strContains setupCfg "[tool:pytest]" then
          some ⟨.pytest, ⟨"pytest", "setup.cfg [tool:pytest]"⟩⟩
        else none
      | none => none

/-- Source function `detectTestFramework`: Node first, then Python. -/
def detectTestFramework (projectPath : String) (fsys : FileSystem) :
    Option TestFrameworkResult :=
  match detectNodeTestFramework projectPath fsys with
  | some r => some r
  | none => detectPythonTestFramework projectPath fsys

/-! ## Build system detector (`src/detector/build-system.ts`) -/

/-- Vite config filenames, in checked order. -/
def viteConfigs : List String :=
  ["vite.config.ts", "vite.config.js", "vite.config.mts", "vite.config.mjs"]

/-- Webpack config filenames, in checked order. -/
def webpackConfigs : List String :=
  ["webpack.config.ts", "webpack.config.js", "webpack.config.mjs"]

/-- Rollup config filenames, in checked order. -/
def rollupConfigs : List String :=
  ["rollup.config.ts", "rollup.config.js", "rollup.config.mjs"]

/-- Source function `detectFromBuildScript`: mine the `build` script for known build
tool substrings, first match in fixed order wins. -/
def detectFromBuildScript (packageJsonContent : String) : Option BuildSystemResult :=
  match scriptFieldOf packageJsonContent "build" with
  | none => none
  | some buildScript =>
    if strContains buildScript "vite" then
      some ⟨.vite, ⟨"npm run build", "package.json scripts.build"⟩⟩
    else if strContains buildScript "webpack" then
      some ⟨.webpack, ⟨"npm run build", "package.json scripts.build"⟩⟩
    else if strContains buildScript "esbuild" then
      some ⟨.esbuild, ⟨"npm run build", "package.json scripts.build"⟩⟩
    else if strContains buildScript "rollup" then
      some ⟨.rollup, ⟨"npm run build", "package.json scripts.build"⟩⟩
    else if strContains buildScript "tsc" then
      some ⟨.tsc, ⟨"npm run build", "package.json scripts.build"⟩⟩
    else none

/-- Source function `detectNodeBuildSystem`: vite, webpack, rollup config files in order;
then the `build` script; then the tsc fallback on tsconfig.json. -/
def detectNodeBuildSystem (projectPath : String) (fsys : FileSystem) :
    Option BuildSystemResult :=
  match viteConfigs.find? (cfgExists projectPath fsys) with
  | some config => some ⟨.vite, ⟨"npx vite build", config⟩⟩
  | none =>
    match webpackConfigs.find? (cfgExists projectPath fsys) with
    | some config => some ⟨.webpack, ⟨"npx webpack", config⟩⟩
    | none =>
      match rollupConfigs.find? (cfgExists projectPath fsys) with
      | some config => some ⟨.rollup, ⟨"npx rollup -c", config⟩⟩
      | none =>
        match (match fsys.readFile (projectPath ++ "/package.json") with
               | some packageJson => detectFromBuildScript packageJson
               | none => none) with
        | some fromScripts => some fromScripts
        | none =>
          if fsys.fexists (projectPath ++ "/tsconfig.json") then
            some ⟨.tsc, ⟨"npx tsc", "tsconfig.json"⟩⟩
          else none

/-- Source function `detectPythonBuildSystem`. -/
def detectPythonBuildSystem (projectPath : String) (fsys : FileSystem) :
    Option BuildSystemResult :=
  match fsys.readFile (projectPath ++ "/pyproject.toml") with
  | none =>
    if fsys.fexists (projectPath ++ "/setup.py") then
      some ⟨.setuptools, ⟨"python -m build", "setup.py"⟩⟩
    else none
  | some pyprojectContent =>
    if strContains pyprojectContent "[tool.hatch]" ∨
        strContains pyprojectContent "hatchling" then
      some ⟨.hatch, ⟨"hatch build", "pyproject.toml [tool.hatch]"⟩⟩
    else if strContains pyprojectContent "[tool.maturin]" ∨
        strContains pyprojectContent "maturin" then
      some ⟨.maturin, ⟨"maturin build", "pyproject.toml [tool.maturin]"⟩⟩
    else if strContains pyprojectContent "setuptools" ∨
        fsys.fexists (projectPath ++ "/setup.py") then
      some ⟨.setuptools, ⟨"python -m build", "pyproject.toml"⟩⟩
    else none

/-- Source function `detectBuildSystem`: Node first, then Python. -/
def detectBuildSystem (projectPath : String) (fsys : FileSystem) :
    Option BuildSystemResult :=
  match detectNodeBuildSystem projectPath fsys with
  | some r => some r
  | none => detectPythonBuildSystem projectPath fsys

/-! ## CI provider detector (`src/detector/ci-provider.ts`) -/

/-- Source function `detectCIProvider`: GitHub Actions iff `.github/workflows` contains a
YAML entry. -/
def detectCIProvider (projectPath : String) (fsys : FileSystem) : Option CIProvider :=
  let entries := fsys.readDir (projectPath ++ "/.github/workflows")
  let hasWorkflows := entries.any (fun entry =>
    strEndsWith entry ".yml" || strEndsWith entry ".yaml")
  if hasWorkflows then some .githubActions else none

/-! ## Linter detector (`src/detector/linter.ts`) -/

/-- Biome config filenames, in checked order. -/
def biomeConfigs : List String := ["biome.json", "biome.jsonc"]

/-- ESLint config filenames, in checked order. -/
def eslintConfigs : List String :=
  ["eslint.config.js", "eslint.config.mjs", "eslint.config.ts",
   ".eslintrc.js", ".eslintrc.json", ".eslintrc.yml", ".eslintrc.yaml"]

/-- Prettier config filenames, in checked order. -/
def prettierConfigs : List String :=
  [".prettierrc", ".prettierrc.json", ".prettierrc.yml", ".prettierrc.yaml",
   ".prettierrc.js", ".prettierrc.mjs", "prettier.config.js", "prettier.config.mjs"]

/-- Source function `detectNodeLinters`: a Biome config short-circuits (it replaces
eslint+prettier); otherwise at most one ESLint and one Prettier result. -/
def detectNodeLinters (projectPath : String) (fsys : FileSystem) : List LinterResult :=
  match biomeConfigs.find? (cfgExists projectPath fsys) with
  | some config => [⟨.biome, ⟨"npx biome check .", config⟩⟩]
  | none =>
    (match eslintConfigs.find? (cfgExists projectPath fsys) with
     | some config => [⟨.eslint, ⟨"npx eslint .", config⟩⟩]
     | none => []) ++
    (match prettierConfigs.find? (cfgExists projectPath fsys) with
     | some config => [⟨.prettier, ⟨"npx prettier --check .", config⟩⟩]
     | none => [])

/-- Source function `detectPythonLinters`: ruff, black, flake8, mypy, each from its
dedicated file or a section of a shared descriptor. -/
def detectPythonLinters (projectPath : String) (fsys : FileSystem) : List LinterResult :=
  let pyprojectContent := fsys.readFile (projectPath ++ "/pyproject.toml")
  (if fsys.fexists (projectPath ++ "/ruff.toml") then
     [⟨.ruff, ⟨"ruff check .", "ruff.toml"⟩⟩]
   else
     match pyprojectContent with
     | some c =>
       if strContains c "[tool.ruff]" then
         [⟨.ruff, ⟨"ruff check .", "pyproject.toml [tool.ruff]"⟩⟩]
       else []
     | none => []) ++
  (match pyprojectContent with
   | some c =>
     if strContains c "[tool.black]" then
       [⟨.black, ⟨"black --check .", "pyproject.toml [tool.black]"⟩⟩]
     else []
   | none => []) ++
  (if fsys.fexists (projectPath ++ "/.flake8") then
     [⟨.flake8, ⟨"flake8 .", ".flake8"⟩⟩]
   else if fsys.fexists (projectPath ++ "/setup.cfg") &&
       strContains ((fsys.readFile (projectPath ++ "/setup.cfg")).getD "") "[flake8]" then
     [⟨.flake8, ⟨"flake8 .", "setup.cfg [flake8]"⟩⟩]
   else []) ++
  (match pyprojectContent with
   | some c =>
     if strContains c "[tool.mypy]" then
       [⟨.mypy, ⟨"mypy .", "pyproject.toml [tool.mypy]"⟩⟩]
     else if fsys.fexists (projectPath ++ "/mypy.ini") then
       [⟨.mypy, ⟨"mypy .", "mypy.ini"⟩⟩]
     else []
   | none =>
     if fsys.fexists (projectPath ++ "/mypy.ini") then
       [⟨.mypy, ⟨"mypy .", "mypy.ini"⟩⟩]
     else [])

/-- Source function `detectLinters`: Node results first, then Python results. -/
def detectLinters (projectPath : String) (fsys : FileSystem) : List LinterResult :=
  detectNodeLinters projectPath fsys ++ detectPythonLinters projectPath fsys

/-! ## MCP config generator (`src/generator/mcp-config.ts`) -/

/-- One MCP server entry. -/
structure McpServerConfig where
  command : String
  args : List String
  env : Option (List (String × String)) := none
deriving DecidableEq, Repr

/-- The `servers` record built by `generateMcpConfig`, in insertion
order: memory always; lsp for TS/JS else tree-sitter for Python; github
when CI is GitHub Actions; coverage when a test framework was found. -/
def mcpServersFor (detection : DetectionResult) : List (String × McpServerConfig) :=
  [("memory", ⟨"python", ["-m", "mcp_memory_service"], none⟩)] ++
  (if detection.languages.contains .typescript ||
      detection.languages.contains .javascript then
     [("lsp", ⟨"npx", ["-y", "@mizchi/lsmcp", "-p", "tsgo"], none⟩)]
   else if detection.languages.contains .python then
     [("tree-sitter", ⟨"python", ["-m", "mcp_server_tree_sitter"], none⟩)]
   else []) ++
  (if detection.ciProvider == some .githubActions then
     [("github", ⟨"npx", ["-y", "@anthropic/github-mcp-server"],
        some [("GITHUB_TOKEN", "$\x7bGITHUB_TOKEN\x7d")]⟩)]
   else []) ++
  (match detection.testFramework with
   | some _ => [("coverage", ⟨"npx", ["-y", "test-coverage-mcp"], none⟩)]
   | none => [])

/-- Serialize one MCP server entry (keys in insertion order: command,
args, env when present). -/
def mcpServerToJson (s : McpServerConfig) : Json :=
  Json.obj
    ([("command", .str s.command), ("args", .arr (s.args.map Json.str))] ++
     (match s.env with
      | some e => [("env", Json.obj (e.map (fun kv => (kv.1, Json.str kv.2))))]
      | none => []))

/-- Serialize the full servers record. -/
def mcpServersToJson (servers : List (String × McpServerConfig)) : Json :=
  Json.obj (servers.map (fun kv => (kv.1, mcpServerToJson kv.2)))

/-- Source function `generateMcpConfig`: the `.mcp.json` text, or none if no servers are
relevant. -/
def generateMcpConfig (detection : DetectionResult) : Option String :=
  let servers := mcpServersFor detection
  if servers.length = 0 then none
  else
    some (jsonStringify (Json.obj [("mcpServers", mcpServersToJson servers)]) ++ "\n")

/-- Modelled from the spec: `generateMcpConfigObject` is imported by the
generation orchestrator from `generator/mcp-config.ts`, but its
definition is not among the provided sources.  Per the spec
("compute both generator outputs as structured objects (not
pre-serialized text) first") it returns the same servers object that
`generateMcpConfig` serializes, or null when no servers are relevant. -/
def generateMcpConfigObject (detection : DetectionResult) :
    Option (List (String × McpServerConfig)) :=
  let servers := mcpServersFor detection
  if servers.length = 0 then none else some servers

/-! ## Hooks generator (`src/generator/hooks.ts`) -/

/-- One hook entry (`type` is always the string "command"). -/
structure HookEntry where
  matcher : String
  type : String
  command : String
deriving DecidableEq, Repr

/-- The `hooks` record of `HooksConfig` (both keys optional). -/
structure HooksRecord where
  PostToolUse : Option (List HookEntry) := none
  PreToolUse : Option (List HookEntry) := none
deriving DecidableEq, Repr

/-- Model of `Object.keys` on a `HooksRecord`, in declaration order. -/
def hooksRecordKeys (h : HooksRecord) : List String :=
  (match h.PostToolUse with | some _ => ["PostToolUse"] | none => []) ++
  (match h.PreToolUse with | some _ => ["PreToolUse"] | none => [])

/-- Source function `getFormatterCommand`: the post-edit formatter, by linter priority. -/
def getFormatterCommand (detection : DetectionResult) : Option String :=
  let linterNames := detection.linters.map (fun l => l.name)
  if linterNames.contains .biome then
    some "npx biome format --write \"$CLAUDE_FILE_PATH\""
  else if linterNames.contains .prettier then
    some "npx prettier --write \"$CLAUDE_FILE_PATH\""
  else if linterNames.contains .black then
    some "black \"$CLAUDE_FILE_PATH\""
  else if linterNames.contains .ruff then
    some "ruff format \"$CLAUDE_FILE_PATH\""
  else none

/-- Source function `generateHooksConfigObject`: the hooks record, or none if no hooks
apply. -/
def generateHooksConfigObject (detection : DetectionResult) : Option HooksRecord :=
  let postToolUse : List HookEntry :=
    match getFormatterCommand detection with
    | some formatter => [⟨"Write|Edit", "command", formatter⟩]
    | none => []
  let hooks : HooksRecord :=
    { PostToolUse := if postToolUse.length > 0 then some postToolUse else none }
  if (hooksRecordKeys hooks).length = 0 then none else some hooks

/-- Serialize one hook entry. -/
def hookEntryToJson (e : HookEntry) : Json :=
  Json.obj [("matcher", .str e.matcher), ("type", .str e.type), ("command", .str e.command)]

/-- Serialize a hooks record (present keys only, in declaration order). -/
def hooksRecordToJson (h : HooksRecord) : Json :=
  Json.obj
    ((match h.PostToolUse with
      | some entries => [("PostToolUse", Json.arr (entries.map hookEntryToJson))]
      | none => []) ++
     (match h.PreToolUse with
      | some entries => [("PreToolUse", Json.arr (entries.map hookEntryToJson))]
      | none => []))

/-- Source function `generateHooksConfig`: the standalone hooks file text, or none. -/
def generateHooksConfig (detection : DetectionResult) : Option String :=
  match generateHooksConfigObject detection with
  | none => none
  | some hooks =>
    some (jsonStringify (Json.obj [("hooks", hooksRecordToJson hooks)]) ++ "\n")

/-! ## CLAUDE.md generator (`src/generator/claude-md.ts`) -/

/-- Source function `padCommand`: command plus padding to column 30, then the comment. -/
def padCommand (command description : String) : String :=
  command ++ String.mk (List.replicate (max 1 (30 - command.length)) ' ') ++
    "# " ++ description

/-- Source function `buildCommandsSection`. -/
def buildCommandsSection (detection : DetectionResult) : List String :=
  (match detection.installCommand with
   | some ic => [padCommand ic.command "Install dependencies"]
   | none => []) ++
  (match detection.buildSystem with
   | some bs => [padCommand bs.command.command "Build project"]
   | none => []) ++
  (match detection.testFramework with
   | some tf => [padCommand tf.command.command "Run tests"]
   | none => []) ++
  detection.linters.map (fun linter =>
    padCommand linter.command.command
      (if linter.name = .prettier then "Format check" else "Lint code"))

/-- Source function `buildStyleSection`. -/
def buildStyleSection (detection : DetectionResult) : List String :=
  let linterNames := detection.linters.map (fun l => l.name)
  (if linterNames.contains .eslint && linterNames.contains .prettier then
     ["- ESLint for linting, Prettier for formatting"]
   else if linterNames.contains .biome then
     ["- Biome for linting and formatting"]
   else if linterNames.contains .eslint then
     ["- ESLint for linting"]
   else []) ++
  (if linterNames.contains .ruff then ["- Ruff for linting and formatting"] else []) ++
  (if linterNames.contains .black then ["- Black for formatting"] else []) ++
  (if linterNames.contains .mypy then ["- Mypy for type checking"] else []) ++
  (if linterNames.contains .flake8 && !linterNames.contains .ruff then
     ["- Flake8 for linting"]
   else []) ++
  (if detection.languages.contains .typescript then
     ["- TypeScript with strict mode"]
   else [])

/-- Source function `buildMcpSection`. -/
def buildMcpSection (detection : DetectionResult) : List String :=
  let hasTs := detection.languages.contains .typescript ||
    detection.languages.contains .javascript
  let hasPython := detection.languages.contains .python
  ["- **memory** — Cross-session context via mcp-memory-service (semantic search)"] ++
  (if hasTs then
     ["- **lsp** — Code intelligence via lsmcp (go-to-definition, find references, rename)"]
   else []) ++
  (if hasPython then
     ["- **tree-sitter** — Code intelligence via mcp-server-tree-sitter (AST analysis, symbols)"]
   else []) ++
  (if !hasTs && !hasPython then
     ["- **tree-sitter** — Code intelligence via mcp-server-tree-sitter (AST analysis, symbols)"]
   else []) ++
  (match detection.ciProvider with
   | some _ => ["- **github** — GitHub integration via github-mcp-server (PRs, issues, Actions)"]
   | none => []) ++
  (match detection.testFramework with
   | some _ => ["- **coverage** — Test coverage tracking via test-coverage-mcp"]
   | none => [])

/-- Source function `generateClaudeMd`: the CLAUDE.md document. -/
def generateClaudeMd (detection : DetectionResult) : String :=
  let commands := buildCommandsSection detection
  let styleNotes := buildStyleSection detection
  let mcpNotes := buildMcpSection detection
  let sections : List String :=
    ["# CLAUDE.md\n",
     "This file provides guidance to Claude Code (claude.ai/code) when working with code in this repository.\n"] ++
    (if commands.length > 0 then
       ["## Build & Test Commands\n", "```bash",
        String.intercalate "\n" commands, "```\n"]
     else []) ++
    (if detection.directories.length > 0 then
       ["## Key Directories\n"] ++
       detection.directories.map (fun dir => "- `" ++ dir ++ "/`") ++ [""]
     else []) ++
    (if styleNotes.length > 0 then
       ["## Code Style\n", String.intercalate "\n" styleNotes, ""]
     else []) ++
    (if mcpNotes.length > 0 then
       ["## MCP Servers Available\n",
        "This project is configured with the following MCP servers (see .mcp.json):\n",
        String.intercalate "\n" mcpNotes, ""]
     else []) ++
    ["## Project-Specific Notes\n",
     "<!-- Add project-specific context here: domain knowledge, gotchas, conventions -->",
     ""]
  String.intercalate "\n" sections

/-! ## Slash command generator (`src/generator/slash-commands.ts`) -/

/-- A file to be written to disk. -/
structure GeneratedFile where
  relativePath : String
  content : String
deriving DecidableEq, Repr

/-- Source function `buildReviewCommand`. -/
def buildReviewCommand (detection : DetectionResult) : String :=
  let lines : List String :=
    ["Review the changes in the current branch compared to main.",
     "",
     "1. Run `git diff main...HEAD` to see all changes.",
     "2. For each changed file, check for:",
     "   - Bugs or logic errors",
     "   - Missing error handling",
     "   - Security concerns",
     "   - Test coverage gaps"] ++
    (if detection.linters.length > 0 then
       ["3. Run " ++
        String.intercalate " and "
          (detection.linters.map (fun l => "`" ++ l.command.command ++ "`")) ++
        " and report any issues."]
     else []) ++
    ["",
     "Provide a concise summary of findings with file:line references."]
  String.intercalate "\n" lines ++ "\n"

/-- Source function `buildTestCommand`. -/
def buildTestCommand (detection : DetectionResult) : String :=
  match detection.testFramework with
  | none => ""
  | some tf =>
    String.intercalate "\n"
      ["Run the test suite with `" ++ tf.command.command ++ "` and report results.",
       "",
       "If any tests fail:",
       "1. Show the failure output.",
       "2. Identify the likely cause.",
       "3. Suggest a fix.",
       "",
       "If all tests pass, report the summary (pass count, duration)."] ++ "\n"

/-- Source function `generateSlashCommands`: review always, test when a framework was
detected. -/
def generateSlashCommands (detection : DetectionResult) : List GeneratedFile :=
  [⟨".claude/commands/review.md", buildReviewCommand detection⟩] ++
  (match detection.testFramework with
   | some _ => [⟨".claude/commands/test.md", buildTestCommand detection⟩]
   | none => [])

/-! ## Generation orchestrator (`src/generator/index.ts`) -/

/-- Options for the generation step (`local` in the source; renamed, a
reserved word in Lean).  When true, MCP config and hooks are merged into
one `.claude/settings.local.json`. -/
structure GenerateOptions where
  localMode : Bool
deriving DecidableEq, Repr

/-- Source function `generateAll`: CLAUDE.md, then the MCP/hooks artifacts under the
local-vs-project merge policy, then the slash commands. -/
def generateAll (detection : DetectionResult) (options : GenerateOptions) :
    List GeneratedFile :=
  let mcpConfigObj := generateMcpConfigObject detection
  let hooksConfigObj := generateHooksConfigObject detection
  let middle : List GeneratedFile :=
    if options.localMode then
      let merged : List (String × Json) :=
        (match mcpConfigObj with
         | some o => [("mcpServers", mcpServersToJson o)]
         | none => []) ++
        (match hooksConfigObj with
         | some h => [("hooks", hooksRecordToJson h)]
         | none => [])
      if merged.length > 0 then
        [⟨".claude/settings.local.json", jsonStringify (Json.obj merged) ++ "\n"⟩]
      else []
    else
      (match mcpConfigObj with
       | some _ =>
         (match generateMcpConfig detection with
          | some mcpConfig => [⟨".mcp.json", mcpConfig⟩]
          | none => [])
       | none => []) ++
      (match hooksConfigObj with
       | some h =>
         [⟨".claude/settings.local.json",
           jsonStringify (Json.obj [("hooks", hooksRecordToJson h)]) ++ "\n"⟩]
       | none => [])
  [⟨"CLAUDE.md", generateClaudeMd detection⟩] ++ middle ++
    generateSlashCommands detection

/-! ## Helper lemmas -/

/-- The servers record is never empty: the memory server is its head. -/
lemma mcpServersFor_ne_nil (d : DetectionResult) : (mcpServersFor d).length ≠ 0 := by
  simp [mcpServersFor]

/-- The structured MCP object is always present and equal to the servers
record. -/
lemma generateMcpConfigObject_eq (d : DetectionResult) :
    generateMcpConfigObject d = some (mcpServersFor d) := by
  simp [generateMcpConfigObject, mcpServersFor_ne_nil d]

/-- The serialized MCP config is the servers record under the
`mcpServers` root key. -/
lemma generateMcpConfig_eq (d : DetectionResult) :
    generateMcpConfig d =
      some (jsonStringify (Json.obj
        [("mcpServers", mcpServersToJson (mcpServersFor d))]) ++ "\n") := by
  simp [generateMcpConfig, mcpServersFor_ne_nil d]

/-- Slash-command artifacts never live at the merged settings path. -/
lemma slash_filter_settings (d : DetectionResult) :
    (generateSlashCommands d).filter
      (fun f => f.relativePath == ".claude/settings.local.json") = [] := by
  cases h : d.testFramework <;>
    simp [generateSlashCommands, h, List.filter]

/-- Slash-command artifacts never live at the manifest path. -/
lemma slash_filter_mcp (d : DetectionResult) :
    (generateSlashCommands d).filter (fun f => f.relativePath == ".mcp.json") = [] := by
  cases h : d.testFramework <;>
    simp [generateSlashCommands, h, List.filter]

/-! ## Claim theorems -/

/-- C8: `detectCIProvider` returns github-actions iff the listing of
`<projectRoot>/.github/workflows` has an entry ending in ".yml" or
".yaml"; an absent directory lists as `[]`, so it, an empty directory,
and a directory of non-YAML entries all yield `null`. -/
theorem detectCIProvider_iff_yaml_workflow (projectPath : String) (fsys : FileSystem) :
    detectCIProvider projectPath fsys = some CIProvider.githubActions ↔
      ∃ entry ∈ fsys.readDir (projectPath ++ "/.github/workflows"),
        (strEndsWith entry ".yml" = true ∨ strEndsWith entry ".yaml" = true) := by
  have hstep : detectCIProvider projectPath fsys = some CIProvider.githubActions ↔
      (fsys.readDir (projectPath ++ "/.github/workflows")).any
        (fun entry => strEndsWith entry ".yml" || strEndsWith entry ".yaml") = true := by
    simp only [detectCIProvider]
    split
    next hcond => simp [hcond]
    next hcond => simp [hcond]
  rw [hstep, List.any_eq_true]
  simp [Bool.or_eq_true]

/-- A fixture filesystem for the C8 witness: one workflows directory
holding a README and one YAML workflow. -/
def ciWitnessFs : FileSystem :=
  ⟨fun _ => false, fun _ => none,
   fun s => if s = "/p/.github/workflows" then ["README.md", "ci.yml"] else []⟩

/-- Witness for C8: a workflows directory with one `.yml` entry and a
README is detected. -/
theorem detectCIProvider_iff_yaml_workflow_witness :
    detectCIProvider "/p" ciWitnessFs = some CIProvider.githubActions :=
  (detectCIProvider_iff_yaml_workflow "/p" ciWitnessFs).mpr
    ⟨"ci.yml", by decide, Or.inl (by decide)⟩

/-- C9: the MCP config is never absent, serializes exactly the servers
record, and that record always carries the memory server with command
"python" and args ["-m", "mcp_memory_service"]. -/
theorem generateMcpConfig_memory_always (detection : DetectionResult) :
    generateMcpConfig detection =
      some (jsonStringify (Json.obj
        [("mcpServers", mcpServersToJson (mcpServersFor detection))]) ++ "\n") ∧
    (mcpServersFor detection).lookup "memory" =
      some ⟨"python", ["-m", "mcp_memory_service"], none⟩ :=
  ⟨generateMcpConfig_eq detection, by simp [mcpServersFor, List.lookup]⟩

/-- C10: the lsp and tree-sitter servers are mutually exclusive; any
JS/TS language forces lsp (and no tree-sitter) even when Python is also
present; tree-sitter appears only for Python without JS/TS. -/
theorem mcp_lsp_treesitter_exclusive (detection : DetectionResult) :
    (((mcpServersFor detection).lookup "lsp").isSome &&
      ((mcpServersFor detection).lookup "tree-sitter").isSome) = false ∧
    ((detection.languages.contains .typescript ||
        detection.languages.contains .javascript) = true →
      ((mcpServersFor detection).lookup "lsp").isSome = true ∧
      (mcpServersFor detection).lookup "tree-sitter" = none) ∧
    (((mcpServersFor detection).lookup "tree-sitter").isSome = true →
      detection.languages.contains .python = true ∧
      detection.languages.contains .typescript = false ∧
      detection.languages.contains .javascript = false) := by
  by_cases hts : Language.typescript ∈ detection.languages <;>
    by_cases hjs : Language.javascript ∈ detection.languages <;>
      by_cases hpy : Language.python ∈ detection.languages <;>
        cases hci : detection.ciProvider == some .githubActions <;>
          cases htf : detection.testFramework <;>
            simp [mcpServersFor, hts, hjs, hpy, hci, htf, List.lookup]

/-- Witness for C10: a project detecting both TypeScript and Python gets
lsp and not tree-sitter. -/
theorem mcp_lsp_treesitter_exclusive_witness :
    ((mcpServersFor { emptyDetectionResult with
        languages := [.typescript, .python] }).lookup "lsp").isSome = true ∧
    (mcpServersFor { emptyDetectionResult with
        languages := [.typescript, .python] }).lookup "tree-sitter" = none :=
  (mcp_lsp_treesitter_exclusive
    { emptyDetectionResult with languages := [.typescript, .python] }).2.1 (by decide)

/-- The JS/TS group of the language detector yields at most one entry,
never "python". -/
lemma jsLangPart_cases (p : String) (fsys : FileSystem) :
    jsLangPart p fsys = [] ∨ jsLangPart p fsys = [.typescript] ∨
      jsLangPart p fsys = [.javascript] := by
  unfold jsLangPart
  split
  · split
    · exact Or.inr (Or.inl rfl)
    · split
      · split
        · exact Or.inr (Or.inl rfl)
        · exact Or.inr (Or.inr rfl)
      · exact Or.inr (Or.inr rfl)
  · exact Or.inl rfl

/-- The Python group of the language detector yields at most one entry,
always "python". -/
lemma pyLangPart_cases (p : String) (fsys : FileSystem) :
    pyLangPart p fsys = [] ∨ pyLangPart p fsys = [.python] := by
  unfold pyLangPart
  split
  · exact Or.inr rfl
  · exact Or.inl rfl

/-- C5: the JS/TS entry always precedes "python" (the result is its
JS/TS entries followed by its python entries, each group of size at most
one); with package.json, tsconfig.json and a Python marker all present
the result is exactly `["typescript", "python"]`. -/
theorem detectLanguage_ordered (p : String) (fsys : FileSystem) :
    (fsys.fexists (p ++ "/package.json") = true →
     fsys.fexists (p ++ "/tsconfig.json") = true →
     pythonSignals.any (fun signal => fsys.fexists (p ++ "/" ++ signal)) = true →
     detectLanguage p fsys = [.typescript, .python]) ∧
    detectLanguage p fsys =
      (detectLanguage p fsys).filter
        (fun l => l == Language.typescript || l == Language.javascript) ++
      (detectLanguage p fsys).filter (fun l => l == Language.python) ∧
    ((detectLanguage p fsys).filter
      (fun l => l == Language.typescript || l == Language.javascript)).length ≤ 1 ∧
    ((detectLanguage p fsys).filter (fun l => l == Language.python)).length ≤ 1 := by
  have hd : detectLanguage p fsys = jsLangPart p fsys ++ pyLangPart p fsys := rfl
  refine ⟨fun h1 h2 h3 => ?_, ?_, ?_, ?_⟩
  · rw [hd]
    simp [jsLangPart, pyLangPart, h1, h2, h3]
  all_goals
    rcases jsLangPart_cases p fsys with hj | hj | hj <;>
      rcases pyLangPart_cases p fsys with hp | hp <;>
        rw [hd, hj, hp] <;> decide

/-- A fixture filesystem for the C5 witness: package.json, tsconfig.json
and a Python marker all present. -/
def langWitnessFs : FileSystem :=
  ⟨fun s => ["/package.json", "/tsconfig.json", "/pyproject.toml"].contains s,
   fun _ => none, fun _ => []⟩

/-- Witness for C5: both ecosystems present yields exactly
`["typescript", "python"]`. -/
theorem detectLanguage_ordered_witness :
    detectLanguage "" langWitnessFs = [.typescript, .python] :=
  (detectLanguage_ordered "" langWitnessFs).1 (by decide) (by decide) (by decide)

/-- C7: with a package.json whose content fails to parse (and no
tsconfig.json), the language detector still yields "javascript" for the
JS/TS group, and the script-mining fallbacks of the test-framework and
build-system detectors yield `none`; every function involved is total,
so no exception can propagate. -/
theorem malformed_manifest_degrades (p : String) (fsys : FileSystem) (content : String)
    (hex : fsys.fexists (p ++ "/package.json") = true)
    (hts : fsys.fexists (p ++ "/tsconfig.json") = false)
    (hread : fsys.readFile (p ++ "/package.json") = some content)
    (hbad : jsonParse content = none) :
    detectLanguage p fsys = Language.javascript :: pyLangPart p fsys ∧
    detectFromPackageJsonScripts content = none ∧
    detectFromBuildScript content = none := by
  have hdep : hasTypescriptDep content = false := by
    simp [hasTypescriptDep, hbad]
  have hscript : ∀ field, scriptFieldOf content field = none := fun field => by
    simp [scriptFieldOf, hbad]
  refine ⟨?_, ?_, ?_⟩
  · have : jsLangPart p fsys = [.javascript] := by
      simp [jsLangPart, hex, hts, hread, hdep]
    show jsLangPart p fsys ++ pyLangPart p fsys = _
    rw [this]
    rfl
  · simp [detectFromPackageJsonScripts, hscript]
  · simp [detectFromBuildScript, hscript]

/-- A fixture filesystem for the C7 witness: package.json exists but its
content is not valid JSON. -/
def malformedWitnessFs : FileSystem :=
  ⟨fun s => s == "/package.json",
   fun s => if s == "/package.json" then some "\x7boops" else none,
   fun _ => []⟩

/-- Witness for C7: the malformed manifest yields "javascript" and the
script miners yield `none`. -/
theorem malformed_manifest_degrades_witness :
    detectLanguage "" malformedWitnessFs = [Language.javascript] ∧
    detectFromBuildScript "\x7boops" = none := by
  have h := malformed_manifest_degrades "" malformedWitnessFs "\x7boops"
    (by decide) (by decide) (by decide) (by rfl)
  exact ⟨by rw [h.1]; rfl, h.2.2⟩

/-- The Python linter sub-pipeline yields nothing when none of its
signals is present. -/
lemma detectPythonLinters_empty (p : String) (fsys : FileSystem)
    (hruff : fsys.fexists (p ++ "/ruff.toml") = false)
    (hpyproj : ∀ c, fsys.readFile (p ++ "/pyproject.toml") = some c →
      strContains c "[tool.ruff]" = false ∧ strContains c "[tool.black]" = false ∧
        strContains c "[tool.mypy]" = false)
    (hflake : fsys.fexists (p ++ "/.flake8") = false)
    (hsetup : fsys.fexists (p ++ "/setup.cfg") = false ∨
      strContains ((fsys.readFile (p ++ "/setup.cfg")).getD "") "[flake8]" = false)
    (hmypy : fsys.fexists (p ++ "/mypy.ini") = false) :
    detectPythonLinters p fsys = [] := by
  unfold detectPythonLinters
  cases hc : fsys.readFile (p ++ "/pyproject.toml") with
  | none =>
    rcases hsetup with hs | hs <;>
      simp [hc, hruff, hflake, hmypy, hs]
  | some c =>
    obtain ⟨h1, h2, h3⟩ := hpyproj c hc
    rcases hsetup with hs | hs <;>
      simp [hc, hruff, hflake, hmypy, hs, h1, h2, h3]

/-- C3: a Biome config file short-circuits the Node sub-pipeline: with a
Biome config present alongside ESLint and Prettier configs and no Python
linter signal, the result is exactly the one biome entry, its source the
matched Biome filename. -/
theorem biome_short_circuit (p : String) (fsys : FileSystem) (config : String)
    (hb : biomeConfigs.find? (cfgExists p fsys) = some config)
    (hes : ∃ c ∈ eslintConfigs, cfgExists p fsys c = true)
    (hpr : ∃ c ∈ prettierConfigs, cfgExists p fsys c = true)
    (hruff : fsys.fexists (p ++ "/ruff.toml") = false)
    (hpyproj : ∀ c, fsys.readFile (p ++ "/pyproject.toml") = some c →
      strContains c "[tool.ruff]" = false ∧ strContains c "[tool.black]" = false ∧
        strContains c "[tool.mypy]" = false)
    (hflake : fsys.fexists (p ++ "/.flake8") = false)
    (hsetup : fsys.fexists (p ++ "/setup.cfg") = false ∨
      strContains ((fsys.readFile (p ++ "/setup.cfg")).getD "") "[flake8]" = false)
    (hmypy : fsys.fexists (p ++ "/mypy.ini") = false) :
    detectLinters p fsys = [⟨.biome, ⟨"npx biome check .", config⟩⟩] := by
  have hnode : detectNodeLinters p fsys = [⟨.biome, ⟨"npx biome check .", config⟩⟩] := by
    simp [detectNodeLinters, hb]
  have hpy := detectPythonLinters_empty p fsys hruff hpyproj hflake hsetup hmypy
  simp [detectLinters, hnode, hpy]

/-- A fixture filesystem for the C3 witness: biome.json beside
eslint.config.js and .prettierrc, no Python files. -/
def biomeWitnessFs : FileSystem :=
  ⟨fun s => ["/biome.json", "/eslint.config.js", "/.prettierrc"].contains s,
   fun _ => none, fun _ => []⟩

/-- Witness for C3: the unifier supersedes both the linter and the
formatter. -/
theorem biome_short_circuit_witness :
    detectLinters "" biomeWitnessFs =
      [⟨.biome, ⟨"npx biome check .", "biome.json"⟩⟩] :=
  biome_short_circuit "" biomeWitnessFs "biome.json" (by decide)
    ⟨"eslint.config.js", by decide, by decide⟩
    ⟨".prettierrc", by decide, by decide⟩
    (by decide) (fun c hc => by simp [biomeWitnessFs] at hc)
    (by decide) (Or.inl (by decide)) (by decide)

/-- C6: a pyproject.toml carrying both the ruff and the mypy sections,
with no dedicated config files and no Node or other Python signals,
yields exactly the ruff then mypy entries with the descriptor-section
source strings. -/
theorem pyproject_sections_provenance (p : String) (fsys : FileSystem) (c : String)
    (hread : fsys.readFile (p ++ "/pyproject.toml") = some c)
    (hruffsec : strContains c "[tool.ruff]" = true)
    (hmypysec : strContains c "[tool.mypy]" = true)
    (hblack : strContains c "[tool.black]" = false)
    (hrufftoml : fsys.fexists (p ++ "/ruff.toml") = false)
    (hmypyini : fsys.fexists (p ++ "/mypy.ini") = false)
    (hflake : fsys.fexists (p ++ "/.flake8") = false)
    (hsetup : fsys.fexists (p ++ "/setup.cfg") = false ∨
      strContains ((fsys.readFile (p ++ "/setup.cfg")).getD "") "[flake8]" = false)
    (hnode : ∀ cfg ∈ biomeConfigs ++ eslintConfigs ++ prettierConfigs,
      fsys.fexists (p ++ "/" ++ cfg) = false) :
    detectLinters p fsys =
      [⟨.ruff, ⟨"ruff check .", "pyproject.toml [tool.ruff]"⟩⟩,
       ⟨.mypy, ⟨"mypy .", "pyproject.toml [tool.mypy]"⟩⟩] := by
  have hfind : ∀ l : List String, (∀ x ∈ l, x ∈ biomeConfigs ++ eslintConfigs ++ prettierConfigs) →
      l.find? (cfgExists p fsys) = none := fun l hsub =>
    List.find?_eq_none.mpr (fun x hx => by
      simp only [cfgExists, hnode x (hsub x hx)]
      exact Bool.false_ne_true)
  have h1 : biomeConfigs.find? (cfgExists p fsys) = none :=
    hfind _ (fun x hx => List.mem_append_left _ (List.mem_append_left _ hx))
  have h2 : eslintConfigs.find? (cfgExists p fsys) = none :=
    hfind _ (fun x hx => List.mem_append_left _ (List.mem_append_right _ hx))
  have h3 : prettierConfigs.find? (cfgExists p fsys) = none :=
    hfind _ (fun x hx => List.mem_append_right _ hx)
  have hnodeL : detectNodeLinters p fsys = [] := by
    simp [detectNodeLinters, h1, h2, h3]
  have hpyL : detectPythonLinters p fsys =
      [⟨.ruff, ⟨"ruff check .", "pyproject.toml [tool.ruff]"⟩⟩,
       ⟨.mypy, ⟨"mypy .", "pyproject.toml [tool.mypy]"⟩⟩] := by
    unfold detectPythonLinters
    rcases hsetup with hs | hs <;>
      simp [hread, hruffsec, hmypysec, hblack, hrufftoml, hmypyini, hflake, hs]
  simp [detectLinters, hnodeL, hpyL]

/-- A fixture filesystem for the C6 witness: only a pyproject.toml with
ruff and mypy sections. -/
def pyprojWitnessFs : FileSystem :=
  ⟨fun s => s == "/pyproject.toml",
   fun s => if s == "/pyproject.toml" then some "[tool.ruff]\nline-length = 100\n[tool.mypy]\nstrict = true\n" else none,
   fun _ => []⟩

/-- Witness for C6: the two descriptor sections yield ruff then mypy
with the exact section-annotated source strings. -/
theorem pyproject_sections_provenance_witness :
    detectLinters "" pyprojWitnessFs =
      [⟨.ruff, ⟨"ruff check .", "pyproject.toml [tool.ruff]"⟩⟩,
       ⟨.mypy, ⟨"mypy .", "pyproject.toml [tool.mypy]"⟩⟩] :=
  pyproject_sections_provenance "" pyprojWitnessFs
    "[tool.ruff]\nline-length = 100\n[tool.mypy]\nstrict = true\n"
    (by decide) (by decide) (by decide) (by decide) (by decide) (by decide)
    (by decide) (Or.inl (by decide)) (by decide)

/-- The bundler config filenames of the Node build-system detector, in
the exact order they are checked. -/
def buildConfigOrder : List String := viteConfigs ++ webpackConfigs ++ rollupConfigs

/-- The result the Node build-system detector hard-codes for a matched
bundler config filename. -/
def nodeBuildConfigResult (config : String) : Option BuildSystemResult :=
  if viteConfigs.contains config then some ⟨.vite, ⟨"npx vite build", config⟩⟩
  else if webpackConfigs.contains config then some ⟨.webpack, ⟨"npx webpack", config⟩⟩
  else if rollupConfigs.contains config then some ⟨.rollup, ⟨"npx rollup -c", config⟩⟩
  else none

/-- C2: the first existing bundler config in the fixed vite, webpack,
rollup order decides the build system (its source the matched filename,
the build script ignored); with no bundler config and a build script
free of every recognized substring, an existing tsconfig.json yields the
tsc fallback. -/
theorem buildSystem_precedence_tsc_fallback (p : String) (fsys : FileSystem) :
    (∀ config, buildConfigOrder.find? (cfgExists p fsys) = some config →
      detectBuildSystem p fsys = nodeBuildConfigResult config) ∧
    ((∀ c ∈ buildConfigOrder, cfgExists p fsys c = false) →
     (∀ content, fsys.readFile (p ++ "/package.json") = some content →
       ∀ s, scriptFieldOf content "build" = some s →
         strContains s "vite" = false ∧ strContains s "webpack" = false ∧
         strContains s "esbuild" = false ∧ strContains s "rollup" = false ∧
         strContains s "tsc" = false) →
     fsys.fexists (p ++ "/tsconfig.json") = true →
     detectBuildSystem p fsys = some ⟨.tsc, ⟨"npx tsc", "tsconfig.json"⟩⟩) := by
  constructor
  · intro config hfind
    rw [buildConfigOrder, List.find?_append, List.find?_append] at hfind
    cases hv : viteConfigs.find? (cfgExists p fsys) with
    | some c0 =>
      rw [hv] at hfind
      simp only [Option.or_some] at hfind
      obtain rfl : config = c0 := by
        injection hfind with h
        exact h.symm
      have hmem := List.mem_of_find?_eq_some hv
      have hdet : detectBuildSystem p fsys = some ⟨.vite, ⟨"npx vite build", config⟩⟩ := by
        simp [detectBuildSystem, detectNodeBuildSystem, hv]
      rw [hdet]
      fin_cases hmem <;> rfl
    | none =>
      rw [hv, Option.none_or] at hfind
      cases hw : webpackConfigs.find? (cfgExists p fsys) with
      | some c0 =>
        rw [hw] at hfind
        simp only [Option.or_some] at hfind
        obtain rfl : config = c0 := by
          injection hfind with h
          exact h.symm
        have hmem := List.mem_of_find?_eq_some hw
        have hdet : detectBuildSystem p fsys = some ⟨.webpack, ⟨"npx webpack", config⟩⟩ := by
          simp [detectBuildSystem, detectNodeBuildSystem, hv, hw]
        rw [hdet]
        fin_cases hmem <;> rfl
      | none =>
        rw [hw, Option.none_or] at hfind
        have hmem := List.mem_of_find?_eq_some hfind
        have hdet : detectBuildSystem p fsys = some ⟨.rollup, ⟨"npx rollup -c", config⟩⟩ := by
          simp [detectBuildSystem, detectNodeBuildSystem, hv, hw, hfind]
        rw [hdet]
        fin_cases hmem <;> rfl
  · intro habsent hscript htsc
    have hnone : ∀ l : List String, (∀ x ∈ l, x ∈ buildConfigOrder) →
        l.find? (cfgExists p fsys) = none := fun l hsub =>
      List.find?_eq_none.mpr (fun x hx => by
        simp only [habsent x (hsub x hx)]
        exact Bool.false_ne_true)
    have hv : viteConfigs.find? (cfgExists p fsys) = none :=
      hnone _ (fun x hx => List.mem_append_left _ (List.mem_append_left _ hx))
    have hw : webpackConfigs.find? (cfgExists p fsys) = none :=
      hnone _ (fun x hx => List.mem_append_left _ (List.mem_append_right _ hx))
    have hr : rollupConfigs.find? (cfgExists p fsys) = none :=
      hnone _ (fun x hx => List.mem_append_right _ hx)
    have hmined : (match fsys.readFile (p ++ "/package.json") with
        | some packageJson => detectFromBuildScript packageJson
        | none => none) = none := by
      cases hread : fsys.readFile (p ++ "/package.json") with
      | none => rfl
      | some content =>
        simp only []
        unfold detectFromBuildScript
        cases hs : scriptFieldOf content "build" with
        | none => rfl
        | some s =>
          obtain ⟨c1, c2, c3, c4, c5⟩ := hscript content hread s hs
          simp [c1, c2, c3, c4, c5]
    simp [detectBuildSystem, detectNodeBuildSystem, hv, hw, hr, hmined, htsc]

/-- A fixture filesystem for the C2 witness, first part: a vite config
present while the build script names webpack. -/
def viteWitnessFs : FileSystem :=
  ⟨fun s => ["/vite.config.ts", "/package.json"].contains s,
   fun s => if s == "/package.json"
     then some "\x7b\"scripts\": \x7b\"build\": \"webpack --mode production\"\x7d\x7d"
     else none,
   fun _ => []⟩

/-- A fixture filesystem for the C2 witness, second part: only
tsconfig.json and a package.json whose build script names no tool. -/
def tscWitnessFs : FileSystem :=
  ⟨fun s => ["/tsconfig.json", "/package.json"].contains s,
   fun s => if s == "/package.json"
     then some "\x7b\"scripts\": \x7b\"build\": \"echo ok\"\x7d\x7d"
     else none,
   fun _ => []⟩

/-- Witness for C2: the vite config wins over the webpack build script,
and the substring-free build script falls through to tsc. -/
theorem buildSystem_precedence_tsc_fallback_witness :
    detectBuildSystem "" viteWitnessFs =
      some ⟨.vite, ⟨"npx vite build", "vite.config.ts"⟩⟩ ∧
    detectBuildSystem "" tscWitnessFs = some ⟨.tsc, ⟨"npx tsc", "tsconfig.json"⟩⟩ := by
  constructor
  · have h := (buildSystem_precedence_tsc_fallback "" viteWitnessFs).1
      "vite.config.ts" (by decide)
    rw [h]
    rfl
  · refine (buildSystem_precedence_tsc_fallback "" tscWitnessFs).2 (by decide)
      (fun content hread s hs => ?_) (by decide)
    have hread' : some "\x7b\"scripts\": \x7b\"build\": \"echo ok\"\x7d\x7d" = some content := hread
    obtain rfl : content = "\x7b\"scripts\": \x7b\"build\": \"echo ok\"\x7d\x7d" := by
      injection hread' with h
      exact h.symm
    have hs' : some "echo ok" = some s := by
      rw [← hs]
      rfl
    obtain rfl : s = "echo ok" := by
      injection hs' with h
      exact h.symm
    decide

/-- C4: with no detected linters the hooks object is `none`, so no hooks
artifact exists: in project mode nothing is emitted at
`.claude/settings.local.json`, and in local mode the single merged
document holds only the `mcpServers` key (no "hooks" key, no no-op
stub). -/
theorem hooks_omitted_when_no_linters (d : DetectionResult)
    (hl : d.linters = []) :
    generateHooksConfigObject d = none ∧
    (generateAll d ⟨false⟩).filter
      (fun f => f.relativePath == ".claude/settings.local.json") = [] ∧
    (generateAll d ⟨true⟩).filter
      (fun f => f.relativePath == ".claude/settings.local.json") =
      [⟨".claude/settings.local.json",
        jsonStringify (Json.obj
          [("mcpServers", mcpServersToJson (mcpServersFor d))]) ++ "\n"⟩] := by
  have hfmt : getFormatterCommand d = none := by
    simp [getFormatterCommand, hl]
  have h0 : generateHooksConfigObject d = none := by
    simp [generateHooksConfigObject, hfmt, hooksRecordKeys]
  refine ⟨h0, ?_, ?_⟩
  · cases htf : d.testFramework <;>
      simp [generateAll, h0, generateMcpConfigObject_eq, generateMcpConfig_eq,
        List.filter_append, generateSlashCommands, htf, List.filter]
  · cases htf : d.testFramework <;>
      simp [generateAll, h0, generateMcpConfigObject_eq,
        List.filter_append, generateSlashCommands, htf, List.filter]

/-- Witness for C4: the empty detection result yields no hooks object
and no hooks artifact in project mode. -/
theorem hooks_omitted_when_no_linters_witness :
    generateHooksConfigObject emptyDetectionResult = none ∧
    (generateAll emptyDetectionResult ⟨false⟩).filter
      (fun f => f.relativePath == ".claude/settings.local.json") = [] := by
  have h := hooks_omitted_when_no_linters emptyDetectionResult rfl
  exact ⟨h.1, h.2.1⟩

/-- C1: when both structured outputs exist, local mode merges them into
exactly one artifact at `.claude/settings.local.json` under the distinct
root keys `mcpServers` and `hooks`, while project mode emits the same
two structured values as separate files (`.mcp.json`, and the hooks file
under the root key `hooks`): the flag moves content, it never changes
it. -/
theorem generateAll_merge_semantics (d : DetectionResult)
    (m : List (String × McpServerConfig)) (h : HooksRecord)
    (hm : generateMcpConfigObject d = some m)
    (hh : generateHooksConfigObject d = some h) :
    (generateAll d ⟨true⟩).filter
      (fun f => f.relativePath == ".claude/settings.local.json") =
      [⟨".claude/settings.local.json",
        jsonStringify (Json.obj
          [("mcpServers", mcpServersToJson m),
           ("hooks", hooksRecordToJson h)]) ++ "\n"⟩] ∧
    (generateAll d ⟨false⟩).filter (fun f => f.relativePath == ".mcp.json") =
      [⟨".mcp.json",
        jsonStringify (Json.obj [("mcpServers", mcpServersToJson m)]) ++ "\n"⟩] ∧
    (generateAll d ⟨false⟩).filter
      (fun f => f.relativePath == ".claude/settings.local.json") =
      [⟨".claude/settings.local.json",
        jsonStringify (Json.obj [("hooks", hooksRecordToJson h)]) ++ "\n"⟩] := by
  obtain rfl : m = mcpServersFor d := by
    rw [generateMcpConfigObject_eq] at hm
    injection hm with hx
    exact hx.symm
  refine ⟨?_, ?_, ?_⟩
  · cases htf : d.testFramework <;>
      simp [generateAll, hh, generateMcpConfigObject_eq,
        List.filter_append, generateSlashCommands, htf, List.filter]
  · cases htf : d.testFramework <;>
      simp [generateAll, hh, generateMcpConfigObject_eq, generateMcpConfig_eq,
        List.filter_append, generateSlashCommands, htf, List.filter]
  · cases htf : d.testFramework <;>
      simp [generateAll, hh, generateMcpConfigObject_eq, generateMcpConfig_eq,
        List.filter_append, generateSlashCommands, htf, List.filter]

/-- A detection result for the C1 witness: TypeScript with Prettier, so
both the MCP object and the hooks object are present. -/
def sampleDetection : DetectionResult :=
  { emptyDetectionResult with
      languages := [.typescript]
      linters := [⟨.prettier, ⟨"npx prettier --check .", ".prettierrc"⟩⟩] }

/-- The hooks record the sample detection produces. -/
def sampleHooks : HooksRecord :=
  { PostToolUse :=
      some [⟨"Write|Edit", "command", "npx prettier --write \"$CLAUDE_FILE_PATH\""⟩] }

/-- Witness for C1: on the sample detection, project mode emits the
manifest at `.mcp.json` and local mode emits the single merged document
with both root keys, built from the same structured values. -/
theorem generateAll_merge_semantics_witness :
    (generateAll sampleDetection ⟨false⟩).filter
      (fun f => f.relativePath == ".mcp.json") =
      [⟨".mcp.json",
        jsonStringify (Json.obj
          [("mcpServers", mcpServersToJson (mcpServersFor sampleDetection))]) ++ "\n"⟩] ∧
    (generateAll sampleDetection ⟨true⟩).filter
      (fun f => f.relativePath == ".claude/settings.local.json") =
      [⟨".claude/settings.local.json",
        jsonStringify (Json.obj
          [("mcpServers", mcpServersToJson (mcpServersFor sampleDetection)),
           ("hooks", hooksRecordToJson sampleHooks)]) ++ "\n"⟩] := by
  have h := generateAll_merge_semantics sampleDetection
    (mcpServersFor sampleDetection) sampleHooks (by rfl) (by rfl)
  exact ⟨h.2.1, h.1⟩

end Anvil
